import Mathlib

/-!
Verification of the decimal32 (BID) codec in src/dec32.go.

The 32-bit word is modelled as a `Nat` (meaningful bits 0..31); Go's
`uint32` operations are modelled by the corresponding `Nat` bitwise
operations with an explicit `% 2^32` where Go wraps.  Go's `int32` and
`int8` values are modelled as `Int` with explicit two's-complement
wrapping functions.
-/

/-- Go type Dec32 = uint32, modelled as a natural number. -/
abbrev Dec32 := Nat

def signMask : Nat := 0x80000000

def combMask : Nat := 0x7c000000

def expMask : Nat := 0x03f00000

def contMask : Nat := 0x000fffff

def coeffMaxBits : Nat := 0x00800000

def coeffMaxMask : Nat := 0x00100000

def combOffset : Nat := 26

def expOffset : Nat := 20

def maxCoeff : Int := 9999999

def minExp : Int := -95

def maxExp : Int := 96

/-- Go uint32 left shift: shifts and truncates to 32 bits. -/
def shl32 (x n : Nat) : Nat := (x <<< n) % 2 ^ 32

/-- Go conversion uint32 → int32 (two's complement reinterpretation). -/
def toI32 (n : Nat) : Int := ((n : Int) + 2 ^ 31) % 2 ^ 32 - 2 ^ 31

/-- Go conversion of a 32-bit quantity to int8: truncate to the low 8 bits,
two's complement. -/
def toI8 (n : Nat) : Int := ((n : Int) + 2 ^ 7) % 2 ^ 8 - 2 ^ 7

/-- Go int32 negation `0 - x`, which wraps on overflow (notably at -2^31). -/
def int32neg (x : Int) : Int := (-x + 2 ^ 31) % 2 ^ 32 - 2 ^ 31

/-- Go conversion int32 → uint32 (two's complement bit pattern). -/
def toU32 (x : Int) : Nat := (x % 2 ^ 32).toNat

/-- Go conversion int8 → uint8 (two's complement bit pattern). -/
def toU8 (x : Int) : Nat := (x % 2 ^ 8).toNat

/-- Result triple of Dec32.Decode: (coeff int32, expn int8, ok bool). -/
structure DecodeResult where
  coeff : Int
  expn : Int
  ok : Bool
  deriving DecidableEq, Repr

def Dec32.combBits (d : Dec32) : Nat := (d &&& combMask) >>> combOffset

def Dec32.expBits (d : Dec32) : Nat := (d &&& expMask) >>> expOffset

def Dec32.contBits (d : Dec32) : Nat := d &&& contMask

def failDec32 : Dec32 := 0xffffffff

/-- EncodeDec32 from src/dec32.go lines 84-105.  Go's `&^ contMask` on a
uint32 is bitwise AND with the 32-bit complement 0xfff00000. -/
def EncodeDec32 (coeff : Int) (exp : Int) : Dec32 × Bool :=
  let result : Nat := 0
  let result := if coeff < 0 then result ||| signMask else result
  let coeff : Int := if coeff < 0 then int32neg coeff else coeff
  if coeff > maxCoeff then (failDec32, false)
  else if exp < minExp ∨ exp > maxExp then (failDec32, false)
  else
    let result := result ||| (toU32 coeff &&& contMask)
    let uexp : Nat := toU8 exp
    let result :=
      if coeffMaxBits &&& toU32 coeff = coeffMaxBits then
        result |||
          (0x60000000 ||| shl32 (uexp &&& 0xc0) 21 |||
            shl32 (toU32 coeff &&& coeffMaxMask) 6 ||| shl32 (uexp &&& 0x3f) 20)
      else
        result |||
          (shl32 (uexp &&& 0xc0) 23 |||
            shl32 (toU32 coeff &&& 0xfff00000) 6 ||| shl32 (uexp &&& 0x3f) 20)
    (result, true)

/-- Dec32.Decode from src/dec32.go lines 110-127. -/
def Dec32.Decode (d : Dec32) : DecodeResult :=
  let comb := d.combBits
  let exp := d.expBits
  let cont := d.contBits
  let r : DecodeResult :=
    if comb &&& 0x18 = 0x18 then
      { coeff := toI32 (shl32 (comb &&& 0x01) 20 ||| coeffMaxBits ||| cont)
        expn := toI8 ((shl32 comb 5 &&& 0xc0) ||| exp)
        ok := true }
    else
      { coeff := toI32 (shl32 (comb &&& 0x07) 20 ||| cont)
        expn := toI8 ((shl32 comb 3 &&& 0xc0) ||| exp)
        ok := true }
  if r.ok then
    if d &&& signMask = signMask then { r with coeff := int32neg r.coeff } else r
  else r

/-- Dec32.Zero from src/dec32.go lines 46-49. -/
def Dec32.Zero (d : Dec32) : Bool :=
  let r := d.Decode
  decide (r.coeff = 0) || decide (r.coeff > maxCoeff)

/-- Dec32.Valid from src/dec32.go lines 54-57. -/
def Dec32.Valid (d : Dec32) : Bool :=
  let r := d.Decode
  r.ok && decide (r.expn ≥ minExp) && decide (r.expn ≤ maxExp) &&
    decide (r.coeff ≤ maxCoeff)

/-- Dec32.IsInf from src/dec32.go lines 60-62. -/
def Dec32.IsInf (d : Dec32) : Bool := d.combBits == 0x1e

/-- Dec32.IsNaN from src/dec32.go lines 65-67. -/
def Dec32.IsNaN (d : Dec32) : Bool := d.combBits == 0x1f

/-- Modelled from the source Dec32.Float32 (src/dec32.go lines 130-144), with
every binary floating-point operation replaced by exact rational arithmetic
and the NaN result modelled as `none`.  The source computes
`expf = 10.0 * float32(exp)` when `exp > 0`, `expf = 1.0 / (10.0 * float32(exp))`
when `exp < 0`, returns `float32(coeff)` when `exp = 0`, and otherwise
returns `float32(coeff) * expf`.  At the concrete inputs used in the theorems
below every float32 operation involved is exact (all intermediate values are
small integers below 2^24), so this model returns exactly the value the Go
function returns. -/
def Float32Model (d : Dec32) : Option ℚ :=
  let r := d.Decode
  if r.ok = false then none
  else if r.expn > 0 then some ((r.coeff : ℚ) * (10 * (r.expn : ℚ)))
  else if r.expn < 0 then some ((r.coeff : ℚ) * (1 / (10 * (r.expn : ℚ))))
  else some (r.coeff : ℚ)

/-- Derived helper (not a source function): the coefficient bit pattern that
Dec32.Decode reconstructs before the sign bit is applied, i.e. the absolute
value of the decoded coefficient as a natural number. -/
def coeffPat (d : Dec32) : Nat :=
  if d.combBits &&& 0x18 = 0x18 then
    shl32 (d.combBits &&& 0x01) 20 ||| coeffMaxBits ||| d.contBits
  else
    shl32 (d.combBits &&& 0x07) 20 ||| d.contBits

theorem and_mask_eq (d k n : Nat) :
    d &&& ((2 ^ k - 1) <<< n) = d / 2 ^ n % 2 ^ k * 2 ^ n := by
  apply Nat.eq_of_testBit_eq
  intro i
  rw [Nat.testBit_and, Nat.testBit_shiftLeft, Nat.testBit_two_pow_sub_one,
    Nat.mul_comm, Nat.testBit_mul_pow_two, Nat.testBit_mod_two_pow,
    ← Nat.shiftRight_eq_div_pow, Nat.testBit_shiftRight]
  by_cases h : n ≤ i
  · have hni : n + (i - n) = i := by omega
    rw [hni]
    simp only [ge_iff_le, h, decide_True, Bool.true_and]
    rw [Bool.and_comm]
  · simp [h]

theorem or_small {n b : Nat} (a : Nat) (h : b < 2 ^ n) :
    2 ^ n * a ||| b = 2 ^ n * a + b :=
  (Nat.mul_add_lt_is_or h a).symm

theorem or_small' {n a b : Nat} (h : b < 2 ^ n) (hm : 2 ^ n ∣ a) :
    a ||| b = a + b := by
  obtain ⟨q, rfl⟩ := hm
  exact or_small q h

theorem combBits_eq (d : Dec32) : d.combBits = d / 2 ^ 26 % 2 ^ 5 := by
  have h : combMask = (2 ^ 5 - 1) <<< 26 := by decide
  rw [Dec32.combBits, h, combOffset, and_mask_eq, Nat.shiftRight_eq_div_pow,
    Nat.mul_div_cancel _ (by positivity)]

theorem expBits_eq (d : Dec32) : d.expBits = d / 2 ^ 20 % 2 ^ 6 := by
  have h : expMask = (2 ^ 6 - 1) <<< 20 := by decide
  rw [Dec32.expBits, h, expOffset, and_mask_eq, Nat.shiftRight_eq_div_pow,
    Nat.mul_div_cancel _ (by positivity)]

theorem contBits_eq (d : Dec32) : d.contBits = d % 2 ^ 20 := by
  have h : contMask = 2 ^ 20 - 1 := by decide
  rw [Dec32.contBits, h, Nat.and_pow_two_sub_one_eq_mod]

theorem and_signMask_eq (d : Nat) : d &&& signMask = d / 2 ^ 31 % 2 * 2 ^ 31 := by
  have h : signMask = (2 ^ 1 - 1) <<< 31 := by decide
  rw [h, and_mask_eq]
  norm_num

theorem and_contMask_eq (x : Nat) : x &&& contMask = x % 2 ^ 20 := by
  have h : contMask = 2 ^ 20 - 1 := by decide
  rw [h, Nat.and_pow_two_sub_one_eq_mod]

theorem and_c0_eq (x : Nat) : x &&& 0xc0 = x / 2 ^ 6 % 4 * 2 ^ 6 := by
  have h : (0xc0 : Nat) = (2 ^ 2 - 1) <<< 6 := by decide
  rw [h, and_mask_eq]
  norm_num

theorem and_3f_eq (x : Nat) : x &&& 0x3f = x % 2 ^ 6 := by
  have h : (0x3f : Nat) = 2 ^ 6 - 1 := by decide
  rw [h, Nat.and_pow_two_sub_one_eq_mod]

theorem and_18_eq (x : Nat) : x &&& 0x18 = x / 2 ^ 3 % 4 * 2 ^ 3 := by
  have h : (0x18 : Nat) = (2 ^ 2 - 1) <<< 3 := by decide
  rw [h, and_mask_eq]
  norm_num

theorem and_07_eq (x : Nat) : x &&& 0x07 = x % 2 ^ 3 := by
  have h : (0x07 : Nat) = 2 ^ 3 - 1 := by decide
  rw [h, Nat.and_pow_two_sub_one_eq_mod]

theorem and_01_eq (x : Nat) : x &&& 0x01 = x % 2 := by
  have h : (0x01 : Nat) = 2 ^ 1 - 1 := by decide
  rw [h, Nat.and_pow_two_sub_one_eq_mod]

theorem and_fff00000_eq (x : Nat) :
    x &&& 0xfff00000 = x / 2 ^ 20 % 2 ^ 12 * 2 ^ 20 := by
  have h : (0xfff00000 : Nat) = (2 ^ 12 - 1) <<< 20 := by decide
  rw [h, and_mask_eq]

theorem and_coeffMaxMask_eq (x : Nat) :
    x &&& coeffMaxMask = x / 2 ^ 20 % 2 * 2 ^ 20 := by
  have h : coeffMaxMask = (2 ^ 1 - 1) <<< 20 := by decide
  rw [h, and_mask_eq]
  norm_num

theorem coeffMaxBits_and_eq (x : Nat) :
    coeffMaxBits &&& x = x / 2 ^ 23 % 2 * 2 ^ 23 := by
  have h : coeffMaxBits = (2 ^ 1 - 1) <<< 23 := by decide
  rw [Nat.and_comm, h, and_mask_eq]
  norm_num

theorem toI32_eq {n : Nat} (h : n < 2 ^ 31) : toI32 n = n := by
  unfold toI32
  omega

theorem toI8_eq {n : Nat} (h : n < 2 ^ 7) : toI8 n = n := by
  unfold toI8
  omega

theorem int32neg_eq {x : Int} (h1 : -(2 ^ 31) < x) (h2 : x ≤ 2 ^ 31) :
    int32neg x = -x := by
  unfold int32neg
  omega

theorem toU32_eq {x : Int} (h1 : 0 ≤ x) (h2 : x < 2 ^ 32) :
    (toU32 x : Int) = x := by
  unfold toU32
  omega

theorem toU8_int (x : Int) : (toU8 x : Int) = x % 2 ^ 8 := by
  unfold toU8
  omega

theorem toU8_lt (x : Int) : toU8 x < 2 ^ 8 := by
  unfold toU8
  omega

theorem shl32_eq_mul {x n : Nat} (h : x * 2 ^ n < 2 ^ 32) :
    shl32 x n = x * 2 ^ n := by
  rw [shl32, Nat.shiftLeft_eq]
  exact Nat.mod_eq_of_lt h

theorem shl32_le_mul {x n : Nat} : shl32 x n ≤ x * 2 ^ n := by
  rw [shl32, Nat.shiftLeft_eq]
  exact Nat.mod_le _ _

theorem shl32_lt {x n m c : Nat} (hx : x ≤ m) (h : m * 2 ^ n < 2 ^ c) :
    shl32 x n < 2 ^ c := by
  have h1 : shl32 x n ≤ x * 2 ^ n := shl32_le_mul
  have h2 : x * 2 ^ n ≤ m * 2 ^ n := Nat.mul_le_mul_right _ hx
  omega

theorem contBits_lt (d : Dec32) : d.contBits < 2 ^ 20 := by
  rw [contBits_eq]
  exact Nat.mod_lt _ (by norm_num)

theorem coeffPat_lt (d : Dec32) : coeffPat d < 2 ^ 24 := by
  have hcont : d.contBits < 2 ^ 24 := by
    have := contBits_lt d
    omega
  unfold coeffPat
  split
  · refine Nat.or_lt_two_pow (Nat.or_lt_two_pow ?_ (by norm_num [coeffMaxBits])) hcont
    exact shl32_lt Nat.and_le_right (by norm_num)
  · refine Nat.or_lt_two_pow ?_ hcont
    exact shl32_lt Nat.and_le_right (by norm_num)

theorem decode_ok (d : Dec32) : d.Decode.ok = true := by
  simp only [Dec32.Decode]
  split <;> split <;> (try split) <;> rfl

theorem decode_coeff (d : Dec32) :
    d.Decode.coeff =
      if d &&& signMask = signMask then -(coeffPat d : Int) else (coeffPat d : Int) := by
  have hlt : coeffPat d < 2 ^ 24 := coeffPat_lt d
  by_cases hb : d.combBits &&& 0x18 = 0x18 <;>
    by_cases hs : d &&& signMask = signMask <;>
      simp only [Dec32.Decode, coeffPat, hb, hs, if_true, if_false, ite_true,
        ite_false] at hlt ⊢ <;>
      rw [toI32_eq (by omega)] <;>
      try rw [int32neg_eq (by omega) (by omega)]

theorem decode_expn (d : Dec32) :
    d.Decode.expn =
      if d.combBits &&& 0x18 = 0x18 then
        toI8 ((shl32 d.combBits 5 &&& 0xc0) ||| d.expBits)
      else
        toI8 ((shl32 d.combBits 3 &&& 0xc0) ||| d.expBits) := by
  by_cases hb : d.combBits &&& 0x18 = 0x18 <;>
    by_cases hs : d &&& signMask = signMask <;>
      simp only [Dec32.Decode, hb, hs, if_true, if_false, ite_true, ite_false]

example : EncodeDec32 2 (-95) = (0x42100002, true) := by decide
example : EncodeDec32 9999999 0 = (0x6408967f, true) := by decide
example : (Dec32.Decode 0x6408967f) = ⟨9999999, 0, true⟩ := by decide

/-- C1: the round-trip property `Decode(EncodeDec32(c, e)) == (c, e, true)` for
all in-range pairs fails on the code.  At (c, e) = (2, -1) the encoder emits
the word 0x63f00002 (success = true): the two's-complement exponent byte 0xff
places the bits 11 in the top two combination-field positions, so the decoder
takes the large-coefficient branch and returns (8388610, 63, true) instead of
(2, -1, true). -/
theorem roundtrip_fails_at_two_neg_one :
    EncodeDec32 2 (-1) = (0x63f00002, true) ∧
    Dec32.Decode 0x63f00002 = ⟨8388610, 63, true⟩ ∧
    ¬Dec32.Decode 0x63f00002 = ⟨2, -1, true⟩ := by
  decide

/-- C2: EncodeDec32 does not fail on every out-of-range coefficient.  At
coeff = -2147483648 (int32 minimum) the Go negation `coeff = 0 - coeff` wraps
back to -2147483648, the check `coeff > maxCoeff` is false for this negative
value, and the function returns (0x80000000, true) even though
|coeff| = 2147483648 > 9,999,999. -/
theorem encode_min_int32_succeeds :
    EncodeDec32 (-2147483648) 0 = (0x80000000, true) ∧
    (9999999 : Int) < |(-2147483648 : Int)| := by
  decide

/-- C3: Float32 does not return an approximation of coeff × 10^exp.  For the
word 0x00200001 (= EncodeDec32 1 2, decoding to coefficient 1 and exponent 2)
the code computes coeff * (10 * exp) = 20 instead of coeff * 10^exp = 100;
every float32 operation involved is exact at this input, so the Go function
returns exactly 20.0. -/
theorem float32_wrong_at_exp_two :
    EncodeDec32 1 2 = (0x00200001, true) ∧
    Dec32.Decode 0x00200001 = ⟨1, 2, true⟩ ∧
    Float32Model 0x00200001 = some 20 ∧
    (1 : ℚ) * 10 ^ (2 : ℕ) = 100 ∧ (20 : ℚ) ≠ 100 := by
  have h : Dec32.Decode 0x00200001 = ⟨1, 2, true⟩ := by decide
  refine ⟨by decide, h, ?_, by norm_num, by norm_num⟩
  rw [Float32Model, h]
  norm_num

/-- C4: Decode is total and never fails: for every input word the success flag
of the result is true. -/
theorem decode_always_succeeds (d : Dec32) : d.Decode.ok = true :=
  decode_ok d

/-- C5 counterexample: Valid() does not require the decoded coefficient to lie
in [0, 9999999].  The word 0x80000001 decodes to coefficient -1 (sign bit set,
magnitude 1), which is outside [0, 9999999], yet Valid() reports true. -/
theorem valid_negative_coeff_counterexample :
    Dec32.Valid 0x80000001 = true ∧
    (Dec32.Decode 0x80000001).coeff = -1 ∧
    ¬0 ≤ (Dec32.Decode 0x80000001).coeff := by
  decide

/-- C5 amended: Valid() returns true iff Decode succeeds, the decoded exponent
lies in [-95, 96], and the decoded (signed) coefficient is at most 9,999,999;
there is no lower-bound check, so negative decoded coefficients are accepted. -/
theorem valid_iff (d : Dec32) :
    d.Valid = true ↔
      d.Decode.ok = true ∧ -95 ≤ d.Decode.expn ∧ d.Decode.expn ≤ 96 ∧
        d.Decode.coeff ≤ 9999999 := by
  simp [Dec32.Valid, minExp, maxExp, maxCoeff, Bool.and_eq_true,
    decide_eq_true_eq, and_assoc, ge_iff_le]

/-- C6 counterexample: a word whose coefficient bit pattern exceeds 9,999,999
but whose sign bit is set reports Zero() = false, not true.  The word
0xe4089680 carries the pattern 10,000,000 (> 9,999,999) with the sign bit set;
it decodes to -10,000,000 and the signed comparison `coeff > maxCoeff` fails. -/
theorem zero_sign_bit_counterexample :
    Dec32.Zero 0xe4089680 = false ∧
    (Dec32.Decode 0xe4089680).coeff = -10000000 ∧
    coeffPat 0xe4089680 = 10000000 := by
  decide

/-- C6 amended: Zero() returns true iff the coefficient bit pattern is 0, or
the sign bit is clear and the coefficient bit pattern exceeds 9,999,999.  With
the sign bit set, an out-of-range pattern decodes to a negative coefficient
and Zero() reports false. -/
theorem zero_iff (d : Dec32) :
    d.Zero = true ↔
      coeffPat d = 0 ∨ (¬d &&& signMask = signMask ∧ 9999999 < coeffPat d) := by
  simp only [Dec32.Zero, decode_coeff, maxCoeff, Bool.or_eq_true,
    decide_eq_true_eq]
  by_cases hs : d &&& signMask = signMask
  · simp only [hs, if_true, ite_true, not_true, false_and, or_false]
    omega
  · simp only [hs, if_false, ite_false, not_false_iff, true_and]
    omega

/-- C7: the five boundary encodings produce exactly the specified words, each
with success = true. -/
theorem boundary_vectors :
    EncodeDec32 2 (-95) = (0x42100002, true) ∧
    EncodeDec32 2 96 = (0x22000002, true) ∧
    EncodeDec32 9999999 0 = (0x6408967f, true) ∧
    EncodeDec32 8388607 0 = (0x1c0fffff, true) ∧
    EncodeDec32 8388608 0 = (0x60000000, true) := by
  decide

/-- C8: IsInf() holds iff the 5-bit combination field (bits 30-26, i.e. the
value d / 2^26 mod 32) equals binary 11110 = 30, IsNaN() holds iff it equals
binary 11111 = 31, and the two are never both true. -/
theorem isinf_isnan_char (d : Dec32) :
    (d.IsInf = true ↔ d / 2 ^ 26 % 2 ^ 5 = 0x1e) ∧
    (d.IsNaN = true ↔ d / 2 ^ 26 % 2 ^ 5 = 0x1f) ∧
    ¬(d.IsInf = true ∧ d.IsNaN = true) := by
  simp only [Dec32.IsInf, Dec32.IsNaN, beq_iff_eq, combBits_eq]
  exact ⟨trivial, trivial, by omega⟩

/-- C10: the in-range input (8388608, -1) encodes successfully to 0x7bf00000,
whose combination field is binary 11110, so the word is classified as
infinite by IsInf(). -/
theorem inrange_encode_hits_inf :
    EncodeDec32 8388608 (-1) = (0x7bf00000, true) ∧
    Dec32.IsInf 0x7bf00000 = true ∧
    Dec32.combBits 0x7bf00000 = 0x1e ∧
    (8388608 : Int) ≤ 9999999 ∧ -95 ≤ (-1 : Int) ∧ (-1 : Int) ≤ 96 := by
  decide

theorem encode_pos_neg (c e : Int) (h1 : 1 ≤ c) (h2 : c ≤ 9999999)
    (h3 : -95 ≤ e) (h4 : e ≤ 96) :
    (EncodeDec32 c e).2 = true ∧ (EncodeDec32 (-c) e).2 = true ∧
    (EncodeDec32 (-c) e).1 = signMask ||| (EncodeDec32 c e).1 ∧
    (EncodeDec32 c e).1 < 2 ^ 31 := by
  have hnc : ¬(c < 0) := by omega
  have hneg : -c < 0 := by omega
  have hint : int32neg (-c) = c := by
    rw [int32neg_eq (by omega) (by omega)]
    ring
  have hmax : ¬(c > maxCoeff) := by
    simp only [maxCoeff]
    omega
  have hexp : ¬(e < minExp ∨ e > maxExp) := by
    simp only [minExp, maxExp]
    omega
  have hu32 : toU32 c ≤ 9999999 := by
    unfold toU32
    omega
  have hcpart : toU32 c &&& contMask < 2 ^ 31 :=
    lt_of_le_of_lt Nat.and_le_right (by norm_num [contMask])
  simp only [EncodeDec32, if_neg hnc, if_pos hneg, hint, if_neg hmax, if_neg hexp]
  by_cases hbit : coeffMaxBits &&& toU32 c = coeffMaxBits <;>
    simp only [hbit, if_true, if_false, ite_true, ite_false, Nat.zero_or,
      Nat.or_assoc]
  · refine ⟨trivial, trivial, trivial, ?_⟩
    refine Nat.or_lt_two_pow hcpart (Nat.or_lt_two_pow (by norm_num)
      (Nat.or_lt_two_pow ?_ (Nat.or_lt_two_pow ?_ ?_)))
    · exact shl32_lt Nat.and_le_right (by norm_num)
    · exact shl32_lt Nat.and_le_right (by norm_num [coeffMaxMask])
    · exact shl32_lt Nat.and_le_right (by norm_num)
  · refine ⟨trivial, trivial, trivial, ?_⟩
    refine Nat.or_lt_two_pow hcpart (Nat.or_lt_two_pow ?_ (Nat.or_lt_two_pow ?_ ?_))
    · exact shl32_lt Nat.and_le_right (by norm_num)
    · exact shl32_lt (le_trans Nat.and_le_left hu32) (by norm_num)
    · exact shl32_lt Nat.and_le_right (by norm_num)

theorem decode_sign_flip (w : Nat) (hw : w < 2 ^ 31) :
    (Dec32.Decode (signMask ||| w)).coeff = -(Dec32.Decode w).coeff ∧
    (Dec32.Decode (signMask ||| w)).expn = (Dec32.Decode w).expn := by
  have hadd : signMask ||| w = 2 ^ 31 + w := by
    have hs : signMask = 2 ^ 31 * 1 := by norm_num [signMask]
    rw [hs, or_small 1 hw]
    ring
  have hcomb : Dec32.combBits (2 ^ 31 + w) = Dec32.combBits w := by
    rw [combBits_eq, combBits_eq]
    omega
  have hexp : Dec32.expBits (2 ^ 31 + w) = Dec32.expBits w := by
    rw [expBits_eq, expBits_eq]
    omega
  have hcont : Dec32.contBits (2 ^ 31 + w) = Dec32.contBits w := by
    rw [contBits_eq, contBits_eq]
    omega
  have hs1 : (2 ^ 31 + w) &&& signMask = signMask := by
    rw [and_signMask_eq]
    have hq : (2 ^ 31 + w) / 2 ^ 31 % 2 = 1 := by omega
    rw [hq]
    norm_num [signMask]
  have hs2 : ¬(w &&& signMask = signMask) := by
    rw [and_signMask_eq]
    have hq : w / 2 ^ 31 % 2 = 0 := by omega
    rw [hq]
    norm_num [signMask]
  have hpat : coeffPat (2 ^ 31 + w) = coeffPat w := by
    unfold coeffPat
    rw [hcomb, hcont]
  constructor
  · rw [hadd, decode_coeff, decode_coeff, if_pos hs1, if_neg hs2, hpat]
  · rw [hadd, decode_expn, decode_expn, hcomb, hexp]

/-- C9: for every (c, e) with 1 ≤ c ≤ 9,999,999 and e in [-95, 96], both
EncodeDec32(c, e) and EncodeDec32(-c, e) succeed, the two result words differ
only in the sign bit (the positive word is below 2^31 and the negative word
is the positive word plus exactly 2^31, i.e. bit 31 flipped and all other
bits equal), and the two words decode to exactly negated coefficients with
equal exponents. -/
theorem sign_symmetry (c e : Int) (h1 : 1 ≤ c) (h2 : c ≤ 9999999)
    (h3 : -95 ≤ e) (h4 : e ≤ 96) :
    (EncodeDec32 c e).2 = true ∧ (EncodeDec32 (-c) e).2 = true ∧
    (EncodeDec32 c e).1 < 2 ^ 31 ∧
    (EncodeDec32 (-c) e).1 = 2 ^ 31 + (EncodeDec32 c e).1 ∧
    (Dec32.Decode (EncodeDec32 (-c) e).1).coeff =
      -(Dec32.Decode (EncodeDec32 c e).1).coeff ∧
    (Dec32.Decode (EncodeDec32 (-c) e).1).expn =
      (Dec32.Decode (EncodeDec32 c e).1).expn := by
  obtain ⟨ha, hb, hc, hd⟩ := encode_pos_neg c e h1 h2 h3 h4
  have hadd : signMask ||| (EncodeDec32 c e).1 = 2 ^ 31 + (EncodeDec32 c e).1 := by
    have hs : signMask = 2 ^ 31 * 1 := by norm_num [signMask]
    rw [hs, or_small 1 hd]
    ring
  obtain ⟨hx, hy⟩ := decode_sign_flip _ hd
  exact ⟨ha, hb, hd, by rw [hc, hadd], by rw [hc]; exact hx, by rw [hc]; exact hy⟩

/-- Witness for sign_symmetry, instantiated at the concrete input c = 2,
e = 5. -/
theorem sign_symmetry_witness :
    (EncodeDec32 2 5).2 = true ∧ (EncodeDec32 (-2) 5).2 = true ∧
    (EncodeDec32 2 5).1 < 2 ^ 31 ∧
    (EncodeDec32 (-2) 5).1 = 2 ^ 31 + (EncodeDec32 2 5).1 ∧
    (Dec32.Decode (EncodeDec32 (-2) 5).1).coeff =
      -(Dec32.Decode (EncodeDec32 2 5).1).coeff ∧
    (Dec32.Decode (EncodeDec32 (-2) 5).1).expn =
      (Dec32.Decode (EncodeDec32 2 5).1).expn :=
  sign_symmetry 2 5 (by norm_num) (by norm_num) (by norm_num) (by norm_num)
